import Mathlib

/-!
Verification of the granola-mcp indexing and retrieval pipeline.

Shallow embedding of the pipeline sources:
  - src/indexing/themes.ts            (theme registry)
  - src/indexing/insight-extractor.ts (extractInsights validation and retry loop)
  - src/indexing/embedder.ts          (generateEmbedding, generateEmbeddings,
                                       createSearchableText)
  - src/indexing/vector-store.ts      (searchDocuments, searchChunks scoring and
                                       folder filtering)
  - src/index.ts                      (index and sync command orchestration)

JavaScript strings are modelled as Lean String (a list of characters);
`s.substring(0, n)` is `jsSubstring s n`, `a || b` on strings is `jsOr a b`,
`s.includes(p)` is `jsIncludes s p`, `s.toLowerCase()` is `jsToLower s`.
Provider calls (OpenAI chat / embeddings) are modelled as explicit outcome
functions supplied per attempt, so the retry loops become pure functions of
those outcomes.
-/

/-- JavaScript `s.substring(0, n)`: the first `n` characters of `s`. -/
def jsSubstring (s : String) (n : Nat) : String := ⟨s.data.take n⟩

/-- JavaScript `a || b` for strings: `b` exactly when `a` is the empty string. -/
def jsOr (a b : String) : String := if a = "" then b else a

/-- JavaScript `s.includes(pat)`: `pat` occurs contiguously inside `s`. -/
def jsIncludes (s pat : String) : Bool :=
  s.data.tails.any (fun t => pat.data.isPrefixOf t)

/-- JavaScript `s.toLowerCase()` (character-wise lowering). -/
def jsToLower (s : String) : String := ⟨s.data.map Char.toLower⟩

/-! ## Theme registry (src/indexing/themes.ts) -/

structure ThemeDefinition where
  id : String
  name : String
  prompt : String
deriving DecidableEq

def THEMES : List ThemeDefinition := [
  ⟨"pain-points", "Pain Points",
    "User frustrations, problems, complaints, difficulties, blockers"⟩,
  ⟨"feature-requests", "Feature Requests",
    "Desired features, wishlist items, suggestions for improvement"⟩,
  ⟨"positive-feedback", "Positive Feedback",
    "What users liked, praised, found valuable, appreciated, works well"⟩,
  ⟨"pricing", "Pricing",
    "Cost concerns, value perception, willingness to pay, budget constraints, pricing feedback"⟩,
  ⟨"competition", "Competition",
    "Mentions of competitors, alternatives, comparisons, switching from/to other products"⟩,
  ⟨"workflow", "Workflow",
    "How users currently do things, workarounds, existing processes, current tools used"⟩,
  ⟨"decisions", "Decisions",
    "Key decisions made, action items, next steps, conclusions, agreements"⟩,
  ⟨"questions", "Questions",
    "Open questions raised, things needing clarification, uncertainties, follow-ups needed"⟩]

def getThemeNames : List String := THEMES.map (fun t => t.id)

/-! ## Insight data model (src/types.ts) -/

inductive Speaker where
  | me
  | participant
deriving DecidableEq

structure ThemeEvidence where
  text : String
  speaker : Speaker
deriving DecidableEq

structure Theme where
  name : String
  description : String
  evidence : List ThemeEvidence
deriving DecidableEq

structure Quote where
  text : String
  speaker : Speaker
  timestamp : Option String
  context : String
  theme : Option String
deriving DecidableEq

structure ExtractedInsights where
  insights_summary : String
  themes : List Theme
  key_quotes : List Quote
deriving DecidableEq

/-! ## Raw (untrusted) model output, before validation.

The parsed JSON from the chat completion: every field may be absent, and
evidence items arrive either as a bare string (legacy format) or as an
object with optional text and speaker. -/

inductive RawEvidence where
  | str (s : String)
  | obj (text : Option String) (speaker : Option String)
deriving DecidableEq

structure RawTheme where
  name : Option String
  description : String
  evidence : Option (List RawEvidence)
deriving DecidableEq

structure RawQuote where
  text : Option String
  speaker : Option String
  timestamp : Option String
  context : Option String
  theme : Option String
deriving DecidableEq

structure RawInsights where
  insights_summary : Option String
  themes : Option (List RawTheme)
  key_quotes : Option (List RawQuote)
deriving DecidableEq

/-! ## Validation and repair (src/indexing/insight-extractor.ts, lines 128-157) -/

/-- Embeds `validateSpeaker`: `s === 'me' || s === 'participant' ? s : 'participant'`. -/
def validateSpeaker (s : Option String) : Speaker :=
  if s = some "me" then .me
  else if s = some "participant" then .participant
  else .participant

/-- Normalization of one evidence item: a bare string becomes participant
evidence, an object keeps its text (defaulting to empty) and validated speaker. -/
def normalizeEvidence : RawEvidence → ThemeEvidence
  | .str s => ⟨s, .participant⟩
  | .obj text speaker => ⟨text.getD "", validateSpeaker speaker⟩

/-- The theme filter `t.name && themeNames.includes(t.name) && t.evidence?.length > 0`.
Note that the length test is on the RAW evidence list, before empty-text items
are removed. -/
def keepRawTheme (t : RawTheme) : Bool :=
  match t.name with
  | none => false
  | some n => !(n == "") && getThemeNames.contains n
      && decide (0 < (t.evidence.getD []).length)

/-- The theme map: spread the raw theme, replacing its evidence by the
normalized items with empty-text items removed. -/
def cleanTheme (t : RawTheme) : Theme :=
  { name := t.name.getD ""
    description := t.description
    evidence := ((t.evidence.getD []).map normalizeEvidence).filter
      (fun e => decide (0 < e.text.length)) }

/-- The key-quote map: default text to empty, validate the speaker, drop an
empty timestamp, default the context, and keep the theme reference only when
it names a known registry id. -/
def cleanQuote (q : RawQuote) : Quote :=
  { text := q.text.getD ""
    speaker := validateSpeaker q.speaker
    timestamp := match q.timestamp with
      | some t => if t = "" then none else some t
      | none => none
    context := jsOr (q.context.getD "") "Context not provided"
    theme := match q.theme with
      | some t => if !(t == "") && getThemeNames.contains t then some t else none
      | none => none }

/-- The validation block applied to a successfully parsed model response
(the return value inside the try of extractInsights). -/
def validateInsights (parsed : RawInsights) : ExtractedInsights :=
  { insights_summary := jsOr (parsed.insights_summary.getD "") "No insights extracted"
    themes := ((parsed.themes.getD []).filter keepRawTheme).map cleanTheme
    key_quotes := ((parsed.key_quotes.getD []).map cleanQuote).filter
      (fun q => decide (0 < q.text.length)) }

/-! ## Retry loop of extractInsights (src/indexing/insight-extractor.ts, lines 105-183) -/

/-- Outcome of one chat-completion attempt: either a parsed JSON body, or a
thrown error carrying its message (missing content and JSON parse failures
are throws inside the same try, hence also `err`). -/
inductive ExtractOutcome where
  | ok (parsed : RawInsights)
  | err (msg : String)
deriving DecidableEq

def ExtractOutcome.isErr : ExtractOutcome → Bool
  | .ok _ => false
  | .err _ => true

/-- The transient-error test on an error message: checks for Connection,
timeout, ECONNRESET and rate limit markers. -/
def isTransientMessage (m : String) : Bool :=
  jsIncludes m "Connection" || jsIncludes m "timeout"
    || jsIncludes m "ECONNRESET" || jsIncludes m "rate limit"

/-- The degraded result returned when all retries failed:
`notes?.substring(0, 200) || 'Extraction failed'` with empty themes and quotes. -/
def degradedInsights (notes : String) : ExtractedInsights :=
  { insights_summary := jsOr (jsSubstring notes 200) "Extraction failed"
    themes := []
    key_quotes := [] }

def extractMaxRetries : Nat := 3

/-- The attempt loop of extractInsights: on success, validate and return; on a
transient error before the last attempt, back off and retry; otherwise break
to the degraded result. `outcome k` is what attempt `k` produces, the fuel is
the number of remaining loop iterations. -/
def extractAttemptLoop (notes : String) (outcome : Nat → ExtractOutcome) :
    Nat → Nat → ExtractedInsights
  | _, 0 => degradedInsights notes
  | attempt, fuel + 1 =>
    match outcome attempt with
    | .ok parsed => validateInsights parsed
    | .err m =>
      if isTransientMessage m && decide (attempt < extractMaxRetries) then
        extractAttemptLoop notes outcome (attempt + 1) fuel
      else degradedInsights notes

/-- Model of `extractInsights(transcript, notes, title, model)`: the transcript,
title and model only shape the prompt, which is part of the provider call that
`outcome` abstracts. -/
def extractInsights (transcript notes title model : String)
    (outcome : Nat → ExtractOutcome) : ExtractedInsights :=
  extractAttemptLoop notes outcome 1 extractMaxRetries

/-! ## Embedding generator (src/indexing/embedder.ts) -/

/-- Outcome of one embeddings-API attempt: an embedding vector, or a thrown
error carrying its message. The vector type is abstract. -/
inductive EmbedOutcome (α : Type) where
  | ok (v : α)
  | err (msg : String)
deriving DecidableEq

def embedMaxRetries : Nat := 3

/-- The attempt loop of generateEmbedding. `provider input k` is what attempt
`k` on submitted text `input` produces. Returns the backoff delays slept (ms)
together with the result; the `last` argument threads `lastError` for the
unreachable fall-through throw after the loop. -/
def embedAttemptLoop {α : Type} (provider : String → Nat → EmbedOutcome α)
    (input : String) : Nat → Nat → String → List Nat × Except String α
  | _, 0, last => ([], .error last)
  | attempt, fuel + 1, _ =>
    match provider input attempt with
    | .ok v => ([], .ok v)
    | .err m =>
      if isTransientMessage m && decide (attempt < embedMaxRetries) then
        let r := embedAttemptLoop provider input (attempt + 1) fuel m
        ((2 ^ attempt * 1000) :: r.1, r.2)
      else ([], .error m)

/-- Model of `generateEmbedding(text, model)`: the text is truncated to its
first 8000 characters before submission, then up to 3 attempts are made; a
final failure propagates as `Except.error`. -/
def generateEmbedding {α : Type} (provider : String → Nat → EmbedOutcome α)
    (text : String) : List Nat × Except String α :=
  embedAttemptLoop provider (jsSubstring text 8000) 1 embedMaxRetries ""

/-- The batch response sort `response.data.sort((a, b) => a.index - b.index)`:
each response item is an (index, embedding) pair. -/
def batchResponseSort {α : Type} (resp : List (Nat × α)) : List (Nat × α) :=
  resp.mergeSort (fun a b => decide (a.1 ≤ b.1))

/-- One iteration body of generateEmbeddings: truncate each text of the batch,
submit, sort the response by index, and take the embeddings in that order. -/
def processBatch {α : Type} (provider : List String → List (Nat × α))
    (batch : List String) : List α :=
  (batchResponseSort (provider (batch.map (fun t => jsSubstring t 8000)))).map Prod.snd

/-- The batch loop of generateEmbeddings (`for i = 0; i < texts.length; i += batchSize`),
fueled by the initial text count. -/
def generateEmbeddingsLoop {α : Type} (provider : List String → List (Nat × α))
    (batchSize : Nat) : Nat → List String → List α
  | 0, _ => []
  | _ + 1, [] => []
  | fuel + 1, t :: ts =>
    processBatch provider ((t :: ts).take batchSize)
      ++ generateEmbeddingsLoop provider batchSize fuel ((t :: ts).drop batchSize)

/-- Model of `generateEmbeddings(texts, model, { batchSize })`. -/
def generateEmbeddings {α : Type} (provider : List String → List (Nat × α))
    (batchSize : Nat) (texts : List String) : List α :=
  generateEmbeddingsLoop provider batchSize texts.length texts

/-- Embeds `createSearchableText` (src/indexing/embedder.ts): the type-specific
label prefixed to each piece of content before embedding. -/
structure SearchContent where
  type : String
  text : String
  theme_name : Option String
  context : Option String
deriving DecidableEq

def createSearchableText (c : SearchContent) : String :=
  if c.type == "summary" then "Meeting summary: " ++ c.text
  else if c.type == "granola_summary" then "Meeting notes: " ++ c.text
  else if c.type == "theme" then
    "Theme " ++ c.theme_name.getD "undefined" ++ ": " ++ c.text
  else if c.type == "quote" then
    match c.context with
    | some ctx =>
      if ctx == "" then "Quote: \"" ++ c.text ++ "\""
      else "Quote about " ++ ctx ++ ": \"" ++ c.text ++ "\""
    | none => "Quote: \"" ++ c.text ++ "\""
  else c.text

/-! ## Vector store (src/indexing/vector-store.ts) -/

/-- A row of the documents table as returned by a vector search: the stored
columns (JSON-encoded lists already decoded) plus the search distance
`_distance` reported by the store. -/
structure DocRow where
  id : String
  title : String
  folders : List String
  created_at : String
  insights_summary : String
  granola_summary : String
  themes : List Theme
  key_quotes : List Quote
  has_transcript : Bool
  distance : Option ℚ

/-- A row of the chunks table as returned by a vector search. -/
structure ChunkRow where
  id : String
  document_id : String
  content : String
  type : String
  theme_name : String
  timestamp : String
  distance : Option ℚ

/-- The distance-to-similarity conversion:
`row._distance !== undefined ? 1 / (1 + row._distance) : 0`. -/
def rowScore (distance : Option ℚ) : ℚ :=
  match distance with
  | some d => 1 / (1 + d)
  | none => 0

/-- The folder filter of searchDocuments: some folder name of the row contains
the requested folder, case-insensitively. -/
def folderMatches (filter : Option String) (folders : List String) : Bool :=
  match filter with
  | none => true
  | some f => folders.any (fun g => jsIncludes (jsToLower g) (jsToLower f))

/-- A searchDocuments result row. -/
structure DocHit where
  id : String
  title : String
  folders : List String
  created_at : String
  insights_summary : String
  granola_summary : String
  themes : List Theme
  key_quotes : List Quote
  has_transcript : Bool
  score : ℚ

/-- Model of `searchDocuments(dbPath, queryVector, { limit, folder })` applied
to the candidate rows returned by the nearest-neighbor query
`table.search(queryVector).limit(limit)`: the folder filter is applied AFTER
retrieval, then each row is mapped to a scored result. The `limit` bound
itself lives in the retrieval step, so theorems carry it as a hypothesis
`candidates.length ≤ limit`. -/
def searchDocuments (candidates : List DocRow) (folder : Option String) :
    List DocHit :=
  (candidates.filter (fun r => folderMatches folder r.folders)).map
    (fun r =>
      { id := r.id
        title := r.title
        folders := r.folders
        created_at := r.created_at
        insights_summary := r.insights_summary
        granola_summary := r.granola_summary
        themes := r.themes
        key_quotes := r.key_quotes
        has_transcript := r.has_transcript
        score := rowScore r.distance })

/-- A searchChunks result row. -/
structure ChunkHit where
  id : String
  document_id : String
  content : String
  type : String
  theme_name : String
  timestamp : String
  score : ℚ

/-- Model of `searchChunks(dbPath, queryVector, { limit, type, themeName })`
applied to the over-fetched candidate rows (the retrieval step fetches
`limit * 2` candidates, carried as a hypothesis in theorems): equality filters
on type and theme name, truncation to `limit`, then scoring. -/
def searchChunks (candidates : List ChunkRow) (type? themeName? : Option String)
    (limit : Nat) : List ChunkHit :=
  ((candidates.filter (fun r =>
      (match type? with | none => true | some t => r.type == t)
        && (match themeName? with | none => true | some t => r.theme_name == t))).take
    limit).map
    (fun r =>
      { id := r.id
        document_id := r.document_id
        content := r.content
        type := r.type
        theme_name := r.theme_name
        timestamp := r.timestamp
        score := rowScore r.distance })

/-! ## Indexing orchestration (src/index.ts, index and sync command actions) -/

/-- A chunk record accumulated during an indexing run; the vector type is the
abstract embedding type. -/
structure ChunkRecord (α : Type) where
  id : String
  document_id : String
  content : String
  type : String
  theme_name : Option String
  timestamp : Option String
  vector : α
deriving DecidableEq

/-- Speaker tag used when formatting theme evidence:
`e.speaker === 'me' ? 'ME' : 'PARTICIPANT'`. -/
def speakerTag : Speaker → String
  | .me => "ME"
  | .participant => "PARTICIPANT"

/-- The theme chunk text: description, then the evidence quotes joined with
`' | '`, each prefixed with its speaker tag. -/
def themeChunkText (t : Theme) : String :=
  t.description ++ ". Evidence: "
    ++ String.intercalate " | "
      (t.evidence.map (fun e => "[" ++ speakerTag e.speaker ++ "] " ++ e.text))

/-- The chunk set one document contributes in the INDEX command action
(src/index.ts lines 401-451): one summary chunk, one chunk per theme, one
chunk per key quote, with ids derived from the document id, the chunk kind
and the theme name / quote position. `E` is the embedding step. -/
def buildIndexChunks {α : Type} (E : String → α) (docId : String)
    (ins : ExtractedInsights) : List (ChunkRecord α) :=
  { id := docId ++ "_summary"
    document_id := docId
    content := ins.insights_summary
    type := "summary"
    theme_name := none
    timestamp := none
    vector := E (createSearchableText ⟨"summary", ins.insights_summary, none, none⟩) }
  :: (ins.themes.map (fun t =>
      { id := docId ++ "_theme_" ++ t.name
        document_id := docId
        content := t.description
        type := "theme"
        theme_name := some t.name
        timestamp := none
        vector := E (createSearchableText ⟨"theme", themeChunkText t, some t.name, none⟩) })
    ++ ins.key_quotes.enum.map (fun p =>
      { id := docId ++ "_quote_" ++ toString p.1
        document_id := docId
        content := p.2.text
        type := "quote"
        theme_name := p.2.theme
        timestamp := p.2.timestamp
        vector := E (createSearchableText ⟨"quote", p.2.text, none, some p.2.context⟩) }))

/-- The chunk set one document contributes in the SYNC command action
(src/index.ts lines 802-842): theme chunks and quote chunks only — the sync
loop pushes no summary chunk, and its quote chunks carry no theme name. -/
def buildSyncChunks {α : Type} (E : String → α) (docId : String)
    (ins : ExtractedInsights) : List (ChunkRecord α) :=
  ins.themes.map (fun t =>
      { id := docId ++ "_theme_" ++ t.name
        document_id := docId
        content := t.description
        type := "theme"
        theme_name := some t.name
        timestamp := none
        vector := E (createSearchableText ⟨"theme", themeChunkText t, some t.name, none⟩) })
    ++ ins.key_quotes.enum.map (fun p =>
      { id := docId ++ "_quote_" ++ toString p.1
        document_id := docId
        content := p.2.text
        type := "quote"
        theme_name := none
        timestamp := p.2.timestamp
        vector := E (createSearchableText ⟨"quote", p.2.text, none, some p.2.context⟩) })

/-- Per-document input of an indexing run, with the extraction step already
abstracted: `extracted` is what extractInsights would return for this
document's transcript and notes. `hasDocJson` models the
`if (!existsSync(docPath)) continue` guard. -/
structure DocInput where
  id : String
  hasDocJson : Bool
  notes : String
  transcript : String
  extracted : ExtractedInsights

/-- The minimal insight set synthesized without extraction:
`notes.substring(0, 500) || "No summary available"`, no themes, no quotes. -/
def skipInsights (notes : String) : ExtractedInsights :=
  { insights_summary := jsOr (jsSubstring notes 500) "No summary available"
    themes := []
    key_quotes := [] }

/-- The insight selection of both command actions:
`if (!options.skipExtraction && (transcript || notes)) insights = await extractInsights(...)`,
else the synthesized minimal insights. -/
def docInsights (skipExtraction : Bool) (d : DocInput) : ExtractedInsights :=
  if !skipExtraction && (!(d.transcript == "") || !(d.notes == "")) then d.extracted
  else skipInsights d.notes

/-- A row of the documents table accumulated by a run. -/
structure StoredDoc where
  id : String
  insights_summary : String
  themes : List Theme
  key_quotes : List Quote
deriving DecidableEq

/-- The per-document loop of an indexing run: for each directory holding a
document.json, push the indexed document and then its chunks; `build` is the
per-document chunk builder of the command (index or sync). Returns the
accumulated documents and chunks handed to storeDocuments / storeChunks. -/
def runIndexing {α : Type} (build : String → ExtractedInsights → List (ChunkRecord α))
    (skipExtraction : Bool) : List DocInput → List StoredDoc × List (ChunkRecord α)
  | [] => ([], [])
  | d :: rest =>
    let r := runIndexing build skipExtraction rest
    if d.hasDocJson then
      let ins := docInsights skipExtraction d
      (⟨d.id, ins.insights_summary, ins.themes, ins.key_quotes⟩ :: r.1,
        build d.id ins ++ r.2)
    else r

/-! ## Sample rows used by concrete witnesses -/

def sampleDocRowA : DocRow :=
  ⟨"doc-a", "Alpha", ["A team"], "2024-01-01", "", "", [], [], true, none⟩

def sampleDocRowB : DocRow :=
  ⟨"doc-b", "Beta", ["B team"], "2024-01-02", "", "", [], [], false, none⟩

/-! ## Theorems -/

/-- C3: every row returned by searchDocuments (and searchChunks) scores
`1 / (1 + distance)`: a row at distance 0 scores exactly 1, for distances
`d1 < d2` the closer row scores strictly higher, and every score of a row
with a reported nonnegative distance lies in the interval (0, 1]. -/
theorem searchScores_similarity (cands : List DocRow) (folder : Option String) :
    (∀ hit ∈ searchDocuments cands folder, ∃ r ∈ cands, hit.score = rowScore r.distance) ∧
    (∀ d : ℚ, 0 ≤ d →
      rowScore (some d) = 1 / (1 + d) ∧ 0 < rowScore (some d) ∧ rowScore (some d) ≤ 1) ∧
    rowScore (some 0) = 1 ∧
    (∀ d₁ d₂ : ℚ, 0 ≤ d₁ → d₁ < d₂ → rowScore (some d₂) < rowScore (some d₁)) ∧
    (∀ (chunks : List ChunkRow) (t th : Option String) (lim : Nat),
      ∀ hit ∈ searchChunks chunks t th lim, ∃ r ∈ chunks, hit.score = rowScore r.distance) := by
  refine ⟨?_, ?_, ?_, ?_, ?_⟩
  · intro hit h
    simp only [searchDocuments, List.mem_map, List.mem_filter] at h
    obtain ⟨r, ⟨hr, -⟩, rfl⟩ := h
    exact ⟨r, hr, rfl⟩
  · intro d hd
    have hpos : (0 : ℚ) < 1 + d := by linarith
    refine ⟨rfl, ?_, ?_⟩
    · exact div_pos one_pos hpos
    · show (1 : ℚ) / (1 + d) ≤ 1
      rw [div_le_one hpos]; linarith
  · norm_num [rowScore]
  · intro d₁ d₂ h₁ h₂
    have hpos : (0 : ℚ) < 1 + d₁ := by linarith
    exact one_div_lt_one_div_of_lt hpos (by linarith)
  · intro chunks t th lim hit h
    simp only [searchChunks, List.mem_map] at h
    obtain ⟨r, hr, rfl⟩ := h
    have hr' := List.mem_of_mem_take hr
    exact ⟨r, (List.mem_filter.mp hr').1, rfl⟩

/-- C3 witness: the score facts at concrete distances 0, 1, 2 and for a
concrete one-row search. -/
theorem searchScores_similarity_witness :
    rowScore (some 0) = 1 ∧ 0 < rowScore (some 1) ∧ rowScore (some 1) ≤ 1 ∧
      rowScore (some 2) < rowScore (some 1) ∧
      (∀ hit ∈ searchDocuments [sampleDocRowA] none,
        ∃ r ∈ [sampleDocRowA], hit.score = rowScore r.distance) := by
  obtain ⟨h1, h2, h3, h4, -⟩ := searchScores_similarity [sampleDocRowA] none
  exact ⟨h3, (h2 1 (by norm_num)).2.1, (h2 1 (by norm_num)).2.2,
    h4 1 2 (by norm_num) (by norm_num), (searchScores_similarity [sampleDocRowA] none).1⟩

/-- C7: with a folder filter, searchDocuments filters the at-most-limit
candidate pool AFTER retrieval by a case-insensitive substring match on any
folder name: every hit has a matching folder name, at most limit rows come
back, and fewer than limit can come back even though a matching document
exists outside the candidate pool. -/
theorem searchDocuments_folder_postfilter (cands : List DocRow) (f : String)
    (limit : Nat) (hlen : cands.length ≤ limit) :
    (∀ hit ∈ searchDocuments cands (some f),
        ∃ g ∈ hit.folders, jsIncludes (jsToLower g) (jsToLower f) = true) ∧
    (searchDocuments cands (some f)).length ≤ limit ∧
    (∃ (fex : String) (pool : List DocRow) (lim : Nat) (extra : DocRow),
        pool.length ≤ lim ∧ folderMatches (some fex) extra.folders = true ∧
        extra ∉ pool ∧ (searchDocuments pool (some fex)).length < lim) := by
  refine ⟨?_, ?_, ?_⟩
  · intro hit h
    simp only [searchDocuments, List.mem_map, List.mem_filter] at h
    obtain ⟨r, ⟨-, hm⟩, rfl⟩ := h
    simp only [folderMatches, List.any_eq_true] at hm
    exact hm
  · calc (searchDocuments cands (some f)).length
        = (cands.filter (fun r => folderMatches (some f) r.folders)).length := by
          simp [searchDocuments]
      _ ≤ cands.length := List.length_filter_le _ _
      _ ≤ limit := hlen
  · refine ⟨"a team", [sampleDocRowB], 1, sampleDocRowA, by simp, by decide, ?_, by decide⟩
    simp only [List.mem_singleton]
    intro h
    exact absurd (congrArg DocRow.id h) (by decide)

/-- C7 witness: the spec scenario — documents with folders A team and B team,
searched with the case-mismatched filter a team under limit 5. -/
theorem searchDocuments_folder_postfilter_witness :
    (∀ hit ∈ searchDocuments [sampleDocRowA, sampleDocRowB] (some "a team"),
        ∃ g ∈ hit.folders, jsIncludes (jsToLower g) (jsToLower "a team") = true) ∧
    (searchDocuments [sampleDocRowA, sampleDocRowB] (some "a team")).length ≤ 5 := by
  have h := searchDocuments_folder_postfilter [sampleDocRowA, sampleDocRowB] "a team" 5
    (by simp)
  exact ⟨h.1, h.2.1⟩

/-- C9: generateEmbedding submits exactly the first 8000 characters of its
input — the call is literally the attempt loop on the truncated text, and
embedding a text and embedding its 8000-character prefix issue the same
request sequence, hence return the same result. -/
theorem generateEmbedding_truncates {α : Type} (provider : String → Nat → EmbedOutcome α)
    (text : String) :
    generateEmbedding provider text
        = embedAttemptLoop provider (jsSubstring text 8000) 1 embedMaxRetries "" ∧
    generateEmbedding provider (jsSubstring text 8000) = generateEmbedding provider text := by
  refine ⟨rfl, ?_⟩
  unfold generateEmbedding
  have h : jsSubstring (jsSubstring text 8000) 8000 = jsSubstring text 8000 := by
    simp [jsSubstring, List.take_take]
  rw [h]

/-- Helper: a Bool membership test on the registry ids coincides with
propositional membership. -/
theorem getThemeNames_contains_iff (t : String) :
    getThemeNames.contains t = true ↔ t ∈ getThemeNames := by
  simp [List.contains_iff_exists_mem_beq, beq_iff_eq, eq_comm]

/-- C8: every key quote surviving validation has non-empty text and a theme
reference that names a known registry id (or none); the quote list is exactly
the cleaned items with empty-text items dropped; an absent or invalid raw
speaker becomes participant; an unknown raw theme reference is cleared. -/
theorem extract_keyQuotes_validation (parsed : RawInsights) (rq : RawQuote) :
    (∀ q ∈ (validateInsights parsed).key_quotes,
        0 < q.text.length ∧ ∀ t, q.theme = some t → t ∈ getThemeNames) ∧
    ((validateInsights parsed).key_quotes
        = ((parsed.key_quotes.getD []).map cleanQuote).filter
            (fun q => decide (0 < q.text.length))) ∧
    (rq.speaker ≠ some "me" → rq.speaker ≠ some "participant" →
        (cleanQuote rq).speaker = Speaker.participant) ∧
    (∀ t, rq.theme = some t → t ∉ getThemeNames → (cleanQuote rq).theme = none) := by
  refine ⟨?_, rfl, ?_, ?_⟩
  · intro q hq
    simp only [validateInsights, List.mem_filter, List.mem_map] at hq
    obtain ⟨⟨rq', -, rfl⟩, hlen⟩ := hq
    refine ⟨by simpa using hlen, ?_⟩
    intro t ht
    simp only [cleanQuote] at ht
    split at ht
    · split at ht
      · cases ht
        rename_i hcond
        exact (getThemeNames_contains_iff _).mp ((Bool.and_eq_true _ _).mp hcond).2
      · cases ht
    · cases ht
  · intro hme hpart
    simp only [cleanQuote, validateSpeaker]
    rw [if_neg hme, if_neg hpart]
  · intro t ht hmem
    simp only [cleanQuote, ht]
    have hfalse : (!(t == "") && getThemeNames.contains t) = false := by
      cases hc : getThemeNames.contains t with
      | true => exact absurd ((getThemeNames_contains_iff t).mp hc) hmem
      | false => simp [hc]
    have hft : ¬((!(t == "") && getThemeNames.contains t) = true) := by
      rw [hfalse]; exact Bool.false_ne_true
    rw [if_neg hft]

/-- C8 witness: a raw response with one valid quote, one empty-text quote, and
a raw quote with alien speaker and unknown theme reference. -/
theorem extract_keyQuotes_validation_witness :
    (∀ q ∈ (validateInsights ⟨none, none,
        some [⟨some "great point", some "participant", none, none, some "pricing"⟩,
              ⟨some "", some "me", none, none, none⟩]⟩).key_quotes,
        0 < q.text.length ∧ ∀ t, q.theme = some t → t ∈ getThemeNames) ∧
    (cleanQuote ⟨some "x", some "alien", none, none, some "unknown-theme"⟩).speaker
        = Speaker.participant ∧
    (cleanQuote ⟨some "x", some "alien", none, none, some "unknown-theme"⟩).theme = none := by
  refine ⟨(extract_keyQuotes_validation _
      ⟨some "x", some "alien", none, none, some "unknown-theme"⟩).1, ?_, ?_⟩
  · exact (extract_keyQuotes_validation ⟨none, none, none⟩
      ⟨some "x", some "alien", none, none, some "unknown-theme"⟩).2.2.1
      (by decide) (by decide)
  · exact (extract_keyQuotes_validation ⟨none, none, none⟩
      ⟨some "x", some "alien", none, none, some "unknown-theme"⟩).2.2.2
      "unknown-theme" rfl (by decide)

/-- Raw model output whose only theme has a known name and a non-empty raw
evidence list all of whose items have empty text. -/
def emptyEvidenceRaw : RawInsights :=
  ⟨none, some [⟨some "pricing", "cost worries", some [.obj (some "") none]⟩], none⟩

/-- C1 counterexample: the theme filter tests the RAW evidence length before
empty-text items are removed, so a theme whose evidence all has empty text is
retained with an empty evidence list instead of being dropped. -/
theorem extract_theme_empty_evidence_retained :
    ∃ t ∈ (validateInsights emptyEvidenceRaw).themes, t.evidence = [] := by
  exact ⟨⟨"pricing", "cost worries", []⟩, by decide, rfl⟩

/-- C1 amended: every retained theme has a known registry name, and every
retained evidence element has non-empty text and a speaker among me and
participant; a theme whose name is unknown, or whose RAW evidence list is
absent or empty, is dropped entirely (the empty-text filtering happens after
that test, so it can leave a retained theme with empty evidence). -/
theorem extract_theme_validation (parsed : RawInsights) :
    (∀ t ∈ (validateInsights parsed).themes,
        t.name ∈ getThemeNames ∧
        ∀ e ∈ t.evidence,
          0 < e.text.length ∧ (e.speaker = .me ∨ e.speaker = .participant)) ∧
    ((validateInsights parsed).themes
        = ((parsed.themes.getD []).filter keepRawTheme).map cleanTheme) := by
  refine ⟨?_, rfl⟩
  intro t ht
  simp only [validateInsights, List.mem_map, List.mem_filter] at ht
  obtain ⟨rt, ⟨-, hkeep⟩, rfl⟩ := ht
  constructor
  · simp only [keepRawTheme] at hkeep
    cases hn : rt.name with
    | none => rw [hn] at hkeep; cases hkeep
    | some n =>
      rw [hn] at hkeep
      simp only [Bool.and_eq_true] at hkeep
      simp only [cleanTheme, hn, Option.getD_some]
      exact (getThemeNames_contains_iff n).mp hkeep.1.2
  · intro e he
    simp only [cleanTheme, List.mem_filter] at he
    refine ⟨by simpa using he.2, ?_⟩
    cases e.speaker
    · exact Or.inl rfl
    · exact Or.inr rfl

/-- C1 witness: a raw response with one known theme carrying one valid and one
empty evidence item, and one unknown theme. -/
theorem extract_theme_validation_witness :
    "pricing" ∈ getThemeNames ∧ 0 < ("it hurts" : String).length := by
  have h := (extract_theme_validation
    ⟨none, some [⟨some "pricing", "d", some [.obj (some "it hurts") (some "me"), .str ""]⟩,
                 ⟨some "mystery", "x", some [.str "q"]⟩], none⟩).1
    ⟨"pricing", "d", [⟨"it hurts", .me⟩]⟩ (by decide)
  exact ⟨h.1, (h.2 ⟨"it hurts", .me⟩ (by decide)).1⟩

/-- C4: extractInsights never propagates an exception — whenever every attempt
errors (retry exhaustion), or the execution hits a non-transient error (an
error preceded only by errors), the call returns the degraded result built
from the notes: truncated notes (or the extraction-failed marker) with empty
themes and empty quotes. -/
theorem extractInsights_never_fails (transcript notes title model : String)
    (outcome : Nat → ExtractOutcome)
    (h : (∀ k, 1 ≤ k → k ≤ 3 → (outcome k).isErr = true) ∨
        (∃ k m, 1 ≤ k ∧ k ≤ 3 ∧ outcome k = .err m ∧ isTransientMessage m = false ∧
          ∀ j, 1 ≤ j → j < k → (outcome j).isErr = true)) :
    extractInsights transcript notes title model outcome = degradedInsights notes := by
  have err_at : ∀ j, 1 ≤ j → j ≤ 3 →
      (∀ i, 1 ≤ i → i < j → ∃ m, outcome i = .err m ∧ isTransientMessage m = true) →
      (outcome j).isErr = true := by
    intro j hj1 hj3 hprev
    rcases h with hall | ⟨k, m, hk1, hk3, hke, hkt, hkprev⟩
    · exact hall j hj1 hj3
    · rcases Nat.lt_trichotomy j k with hlt | rfl | hgt
      · exact hkprev j hj1 hlt
      · rw [hke]; rfl
      · obtain ⟨m', he', ht'⟩ := hprev k hk1 hgt
        rw [he'] at hke
        cases hke
        rw [ht'] at hkt
        cases hkt
  have e1 : (outcome 1).isErr = true := err_at 1 le_rfl (by omega) (by omega)
  cases h1 : outcome 1 with
  | ok p => rw [h1] at e1; cases e1
  | err m1 =>
    cases hb1 : isTransientMessage m1 with
    | false => simp [extractInsights, extractAttemptLoop, extractMaxRetries, h1, hb1]
    | true =>
      have e2 : (outcome 2).isErr = true := by
        refine err_at 2 (by omega) (by omega) ?_
        intro i hi1 hi2
        have : i = 1 := by omega
        subst this
        exact ⟨m1, h1, hb1⟩
      cases h2 : outcome 2 with
      | ok p => rw [h2] at e2; cases e2
      | err m2 =>
        cases hb2 : isTransientMessage m2 with
        | false =>
          simp [extractInsights, extractAttemptLoop, extractMaxRetries, h1, hb1, h2, hb2]
        | true =>
          have e3 : (outcome 3).isErr = true := by
            refine err_at 3 (by omega) (by omega) ?_
            intro i hi1 hi3
            rcases (by omega : i = 1 ∨ i = 2) with rfl | rfl
            · exact ⟨m1, h1, hb1⟩
            · exact ⟨m2, h2, hb2⟩
          cases h3 : outcome 3 with
          | ok p => rw [h3] at e3; cases e3
          | err m3 =>
            simp [extractInsights, extractAttemptLoop, extractMaxRetries,
              h1, hb1, h2, hb2, h3]

/-- C4 witness: an outcome function that errors non-transiently on every
attempt, with empty notes yielding the extraction-failed marker. -/
theorem extractInsights_never_fails_witness :
    extractInsights "t" "" "title" "gpt-4o-mini" (fun _ => .err "boom")
        = degradedInsights "" ∧
      (degradedInsights "").insights_summary = "Extraction failed" ∧
      (degradedInsights "").themes = [] ∧ (degradedInsights "").key_quotes = [] := by
  refine ⟨?_, by decide, rfl, rfl⟩
  exact extractInsights_never_fails "t" "" "title" "gpt-4o-mini" (fun _ => .err "boom")
    (Or.inl (fun k _ _ => rfl))

/-- C5: generateEmbedding retries transient failures with exponentially
increasing backoff (2000 ms then 4000 ms): failing transiently on attempts 1
and 2 then succeeding on attempt 3 returns the success with no error; a
non-transient first failure propagates immediately; three transient failures
propagate the final error — in both failure cases no fallback vector is
produced. -/
theorem generateEmbedding_retry_policy {α : Type}
    (provider : String → Nat → EmbedOutcome α) (text : String) (v : α)
    (m1 m2 m3 : String) :
    (provider (jsSubstring text 8000) 1 = .err m1 →
      provider (jsSubstring text 8000) 2 = .err m2 →
      provider (jsSubstring text 8000) 3 = .ok v →
      isTransientMessage m1 = true → isTransientMessage m2 = true →
      generateEmbedding provider text = ([2000, 4000], .ok v)) ∧
    (provider (jsSubstring text 8000) 1 = .err m1 → isTransientMessage m1 = false →
      generateEmbedding provider text = ([], .error m1)) ∧
    (provider (jsSubstring text 8000) 1 = .err m1 →
      provider (jsSubstring text 8000) 2 = .err m2 →
      provider (jsSubstring text 8000) 3 = .err m3 →
      isTransientMessage m1 = true → isTransientMessage m2 = true →
      generateEmbedding provider text = ([2000, 4000], .error m3)) := by
  refine ⟨?_, ?_, ?_⟩
  · intro h1 h2 h3 hb1 hb2
    simp [generateEmbedding, embedAttemptLoop, embedMaxRetries, h1, h2, h3, hb1, hb2]
  · intro h1 hb1
    simp [generateEmbedding, embedAttemptLoop, embedMaxRetries, h1, hb1]
  · intro h1 h2 h3 hb1 hb2
    simp [generateEmbedding, embedAttemptLoop, embedMaxRetries, h1, h2, h3, hb1, hb2]

/-- C5 witness: the three retry scenarios at concrete providers — two
transient failures then success, an immediate non-transient failure, and
transient failure on all three attempts. -/
theorem generateEmbedding_retry_policy_witness :
    generateEmbedding (fun _ k =>
        if k = 1 then .err "timeout" else if k = 2 then .err "rate limit" else .ok 7) "x"
      = ([2000, 4000], .ok 7) ∧
    generateEmbedding (fun _ _ => (.err "boom" : EmbedOutcome Nat)) "x"
      = ([], .error "boom") ∧
    generateEmbedding (fun _ k =>
        if k = 1 then (.err "timeout" : EmbedOutcome Nat)
        else if k = 2 then .err "rate limit" else .err "ECONNRESET") "x"
      = ([2000, 4000], .error "ECONNRESET") := by
  refine ⟨?_, ?_, ?_⟩
  · exact (generateEmbedding_retry_policy _ "x" 7 "timeout" "rate limit" "").1
      rfl rfl rfl (by decide) (by decide)
  · exact (generateEmbedding_retry_policy _ "x" 0 "boom" "" "").2.1 rfl (by decide)
  · exact (generateEmbedding_retry_policy _ "x" 0 "timeout" "rate limit" "ECONNRESET").2.2
      rfl rfl rfl (by decide) (by decide)

/-- Helper: every chunk built by the index-command builder carries the
document id it was built for. -/
theorem buildIndexChunks_document_id {α : Type} (E : String → α) (docId : String)
    (ins : ExtractedInsights) :
    ∀ c ∈ buildIndexChunks E docId ins, c.document_id = docId := by
  intro c hc
  simp only [buildIndexChunks, List.mem_cons, List.mem_append, List.mem_map] at hc
  rcases hc with rfl | ⟨t, -, rfl⟩ | ⟨p, -, rfl⟩ <;> rfl

/-- Helper: every chunk built by the sync-command builder carries the
document id it was built for. -/
theorem buildSyncChunks_document_id {α : Type} (E : String → α) (docId : String)
    (ins : ExtractedInsights) :
    ∀ c ∈ buildSyncChunks E docId ins, c.document_id = docId := by
  intro c hc
  simp only [buildSyncChunks, List.mem_append, List.mem_map] at hc
  rcases hc with ⟨t, -, rfl⟩ | ⟨p, -, rfl⟩ <;> rfl

/-- Helper: in any run whose chunk builder only emits chunks referencing the
document it is called for, every accumulated chunk references an accumulated
document. -/
theorem runIndexing_chunks_ref {α : Type}
    (build : String → ExtractedInsights → List (ChunkRecord α))
    (hb : ∀ id ins c, c ∈ build id ins → c.document_id = id)
    (skip : Bool) :
    ∀ docs : List DocInput, ∀ c ∈ (runIndexing build skip docs).2,
      ∃ d ∈ (runIndexing build skip docs).1, c.document_id = d.id := by
  intro docs
  induction docs with
  | nil => intro c hc; simp [runIndexing] at hc
  | cons d rest ih =>
    intro c hc
    by_cases hd : d.hasDocJson = true
    · have h2 : (runIndexing build skip (d :: rest)).2
          = build d.id (docInsights skip d) ++ (runIndexing build skip rest).2 := by
        simp [runIndexing, hd]
      have h1 : (runIndexing build skip (d :: rest)).1
          = ⟨d.id, (docInsights skip d).insights_summary, (docInsights skip d).themes,
              (docInsights skip d).key_quotes⟩ :: (runIndexing build skip rest).1 := by
        simp [runIndexing, hd]
      rw [h2] at hc
      rw [h1]
      rcases List.mem_append.mp hc with hc | hc
      · exact ⟨_, List.mem_cons_self _ _, hb _ _ _ hc⟩
      · obtain ⟨d', hd', he⟩ := ih c hc
        exact ⟨d', List.mem_cons_of_mem _ hd', he⟩
    · have hr : runIndexing build skip (d :: rest) = runIndexing build skip rest := by
        simp [runIndexing, hd]
      rw [hr] at hc ⊢
      exact ih c hc

/-- C10: in both the index and the sync command actions, every accumulated
chunk record's document id is the id of a document accumulated in the same
run, so storeChunks never persists a chunk whose document id is absent from
the documents written by that run. -/
theorem run_chunks_reference_documents {α : Type} (E : String → α) (skip : Bool)
    (docs : List DocInput) :
    (∀ c ∈ (runIndexing (buildIndexChunks E) skip docs).2,
        ∃ d ∈ (runIndexing (buildIndexChunks E) skip docs).1, c.document_id = d.id) ∧
    (∀ c ∈ (runIndexing (buildSyncChunks E) skip docs).2,
        ∃ d ∈ (runIndexing (buildSyncChunks E) skip docs).1, c.document_id = d.id) :=
  ⟨runIndexing_chunks_ref _ (fun id ins c => buildIndexChunks_document_id E id ins c)
      skip docs,
    runIndexing_chunks_ref _ (fun id ins c => buildSyncChunks_document_id E id ins c)
      skip docs⟩

/-- C10 witness: a one-document skip-extraction run whose summary chunk
references the stored document d1. -/
theorem run_chunks_reference_documents_witness :
    ∃ d ∈ (runIndexing (buildIndexChunks (fun s => s.length)) true
        [⟨"d1", true, "hello", "", ⟨"s", [], []⟩⟩]).1,
      (⟨"d1_summary", "d1", "hello", "summary", none, none,
          ("Meeting summary: hello" : String).length⟩ : ChunkRecord Nat).document_id
        = d.id := by
  exact (run_chunks_reference_documents (fun s => s.length) true
      [⟨"d1", true, "hello", "", ⟨"s", [], []⟩⟩]).1 _ (by decide)

/-- C2 counterexample: a one-document sync run with extraction skipped writes
one document row but ZERO chunk rows — the sync command action never emits
the summary chunk, so its chunk set is not 1 summary chunk plus theme and
quote chunks. -/
theorem syncCommand_missing_summary_chunk :
    (runIndexing (buildSyncChunks (fun s => s.length)) true
        [⟨"d1", true, "Discussed pricing concerns.", "", ⟨"s", [], []⟩⟩]).1.length = 1 ∧
    (runIndexing (buildSyncChunks (fun s => s.length)) true
        [⟨"d1", true, "Discussed pricing concerns.", "", ⟨"s", [], []⟩⟩]).2.length = 0 := by
  decide

/-- C2 amended: in the INDEX command action, each document emits exactly
1 summary chunk plus 1 chunk per retained theme plus 1 chunk per retained
quote, with ids derived deterministically from the document id, the chunk
kind and the theme name or quote position; a one-document skip-extraction
index run yields exactly 1 document row and exactly 1 chunk row, and the
stored summary is the first 500 characters of the notes. The sync command
action differs: it emits no summary chunk. -/
theorem indexCommand_chunk_shape {α : Type} (E : String → α) (docId : String)
    (ins : ExtractedInsights) (notes : String) :
    (buildIndexChunks E docId ins).length
        = 1 + ins.themes.length + ins.key_quotes.length ∧
    (∀ c ∈ buildIndexChunks E docId ins,
        (c.type = "summary" ∧ c.id = docId ++ "_summary") ∨
        (c.type = "theme" ∧ ∃ t ∈ ins.themes, c.id = docId ++ "_theme_" ++ t.name) ∨
        (c.type = "quote" ∧
          ∃ i < ins.key_quotes.length, c.id = docId ++ "_quote_" ++ toString i)) ∧
    (runIndexing (buildIndexChunks E) true [⟨docId, true, notes, "", ins⟩]).1.length = 1 ∧
    (runIndexing (buildIndexChunks E) true [⟨docId, true, notes, "", ins⟩]).2.length = 1 ∧
    (∀ d ∈ (runIndexing (buildIndexChunks E) true [⟨docId, true, notes, "", ins⟩]).1,
        d.insights_summary = jsOr (jsSubstring notes 500) "No summary available") := by
  refine ⟨?_, ?_, ?_, ?_, ?_⟩
  · simp only [buildIndexChunks, List.length_cons, List.length_append, List.length_map,
      List.enum_length]
    omega
  · intro c hc
    simp only [buildIndexChunks, List.mem_cons, List.mem_append, List.mem_map] at hc
    rcases hc with rfl | ⟨t, ht, rfl⟩ | ⟨p, hp, rfl⟩
    · exact Or.inl ⟨rfl, rfl⟩
    · exact Or.inr (Or.inl ⟨rfl, t, ht, rfl⟩)
    · refine Or.inr (Or.inr ⟨rfl, p.1, ?_, rfl⟩)
      obtain ⟨h, -⟩ := List.getElem?_eq_some.mp (List.mem_enum_iff_getElem?.mp hp)
      exact h
  · simp [runIndexing, docInsights, skipInsights]
  · simp [runIndexing, docInsights, skipInsights, buildIndexChunks]
  · intro d hd
    simp [runIndexing, docInsights, skipInsights] at hd
    rw [hd]

/-- C2 witness: the amended shape at a concrete document with one theme and
one quote, plus the skip-extraction scenario on the spec's example notes. -/
theorem indexCommand_chunk_shape_witness :
    (buildIndexChunks (fun s => s.length) "d1"
        ⟨"sum", [⟨"pricing", "cost", [⟨"q", .participant⟩]⟩],
          [⟨"quote text", .participant, none, "ctx", none⟩]⟩).length = 3 ∧
    (runIndexing (buildIndexChunks (fun s => s.length)) true
        [⟨"d1", true, "Discussed pricing concerns.", "", ⟨"s", [], []⟩⟩]).1.length = 1 ∧
    (runIndexing (buildIndexChunks (fun s => s.length)) true
        [⟨"d1", true, "Discussed pricing concerns.", "", ⟨"s", [], []⟩⟩]).2.length = 1 := by
  have h := indexCommand_chunk_shape (fun s => s.length) "d1"
    (⟨"sum", [⟨"pricing", "cost", [⟨"q", .participant⟩]⟩],
      [⟨"quote text", .participant, none, "ctx", none⟩]⟩ : ExtractedInsights)
    "Discussed pricing concerns."
  have h2 := indexCommand_chunk_shape (fun s => s.length) "d1"
    (⟨"s", [], []⟩ : ExtractedInsights) "Discussed pricing concerns."
  exact ⟨h.1, h2.2.2.1, h2.2.2.2.1⟩

/-- Helper: the positions in an enumerated list are strictly increasing. -/
theorem enum_pairwise_fst_lt {α : Type} (l : List α) :
    l.enum.Pairwise (fun a b => a.1 < b.1) := by
  have h := List.pairwise_lt_range l.length
  rw [← List.enum_map_fst l] at h
  exact List.pairwise_map.mp h

/-- Helper: two entries of an enumerated list with the same position are equal. -/
theorem mem_enum_eq_of_fst_eq {α : Type} {l : List α} {a b : Nat × α}
    (ha : a ∈ l.enum) (hb : b ∈ l.enum) (h : a.1 = b.1) : a = b := by
  have ha' := List.mem_enum_iff_getElem?.mp ha
  have hb' := List.mem_enum_iff_getElem?.mp hb
  rw [h] at ha'
  rw [ha'] at hb'
  cases a
  cases b
  simp only at h hb'
  cases h
  cases Option.some.inj hb'
  rfl

/-- Helper: sorting any permutation of an enumerated list by position recovers
the enumerated list itself. -/
theorem batchResponseSort_of_perm_enum {α : Type} {resp : List (Nat × α)}
    {l : List α} (h : List.Perm resp l.enum) : batchResponseSort resp = l.enum := by
  unfold batchResponseSort
  refine @List.Perm.eq_of_sorted (Nat × α) (fun a b => a.1 ≤ b.1) _ _ ?_ ?_ ?_
    ((List.mergeSort_perm resp _).trans h)
  · intro a b ha hb hab hba
    have ha' : a ∈ l.enum := h.subset (List.mem_mergeSort.mp ha)
    exact mem_enum_eq_of_fst_eq ha' hb (Nat.le_antisymm hab hba)
  · refine (List.sorted_mergeSort ?_ ?_ resp).imp (fun hab => of_decide_eq_true hab)
    · intro a b c hab hbc
      simp only [decide_eq_true_eq] at hab hbc ⊢
      omega
    · intro a b
      simp only [Bool.or_eq_true, decide_eq_true_eq]
      omega
  · exact (enum_pairwise_fst_lt l).imp (fun hab => Nat.le_of_lt hab)

/-- Helper: one batch returns the embeddings of its truncated texts in input
order, provided the provider returns each indexed embedding exactly once. -/
theorem processBatch_eq {α : Type} (E : String → α)
    (provider : List String → List (Nat × α))
    (hp : ∀ b, List.Perm (provider b) ((b.map E).enum)) (batch : List String) :
    processBatch provider batch = batch.map (fun t => E (jsSubstring t 8000)) := by
  unfold processBatch
  rw [batchResponseSort_of_perm_enum (hp _), List.enum_map_snd, List.map_map]
  rfl

/-- Helper: the batch loop maps every text, for any positive batch size and
sufficient fuel. -/
theorem generateEmbeddingsLoop_eq {α : Type} (E : String → α)
    (provider : List String → List (Nat × α))
    (hp : ∀ b, List.Perm (provider b) ((b.map E).enum)) (bs : Nat) (hbs : 0 < bs) :
    ∀ (fuel : Nat) (texts : List String), texts.length ≤ fuel →
      generateEmbeddingsLoop provider bs fuel texts
        = texts.map (fun t => E (jsSubstring t 8000)) := by
  intro fuel
  induction fuel with
  | zero =>
    intro texts h
    rw [List.eq_nil_of_length_eq_zero (Nat.le_zero.mp h)]
    rfl
  | succ n ih =>
    intro texts h
    cases texts with
    | nil => rfl
    | cons t ts =>
      rw [generateEmbeddingsLoop, processBatch_eq E provider hp,
        ih ((t :: ts).drop bs) (by simp only [List.length_drop, List.length_cons] at h ⊢; omega),
        ← List.map_append, List.take_append_drop]

/-- C6: generateEmbeddings returns the embedding vectors in the same order as
the input texts, for every permutation the provider applies within a batch
response, because each batch response is re-sorted by the provider's returned
index: the i-th output is the embedding of the i-th (truncated) input text. -/
theorem generateEmbeddings_preserves_order {α : Type} (E : String → α)
    (provider : List String → List (Nat × α)) (bs : Nat) (texts : List String)
    (hbs : 0 < bs) (hp : ∀ b, List.Perm (provider b) ((b.map E).enum)) :
    generateEmbeddings provider bs texts
      = texts.map (fun t => E (jsSubstring t 8000)) :=
  generateEmbeddingsLoop_eq E provider hp bs hbs texts.length texts le_rfl

/-- C6 witness: a provider that reverses each batch response still yields the
embeddings (here text lengths) in input order, with batch size 2 over three
texts. -/
theorem generateEmbeddings_preserves_order_witness :
    generateEmbeddings (fun b => ((b.map String.length).enum).reverse) 2
        ["aa", "b", "cccc"] = [2, 1, 4] := by
  rw [generateEmbeddings_preserves_order String.length
    (fun b => ((b.map String.length).enum).reverse) 2 ["aa", "b", "cccc"]
    (by decide) (fun b => List.reverse_perm _)]
  decide
